import Mathlib

/-!
Verification of the real-time chat repository's conversation-synchronization
core: symmetric conversation keys, message grouping, the server typing
state machine, the client typing coordinator, the client connection
registry, the message service, and the timestamp formatter.

Shallow-embedding conventions used throughout:
* JavaScript `number` user identifiers are modelled as `Int` (all call sites
  use integer ids; the spec quantifies over integers).
* Message timestamps are modelled by their epoch value in milliseconds
  (`Int`), i.e. by the value of `new Date(m.timestamp).getTime()` that the
  code computes from the ISO string.
* JavaScript `Map` / nested `Map` objects are modelled as association lists.
* `setTimeout` timers are modelled by their absolute expiry instant; a
  `clearTimeout` + `setTimeout` pair becomes an overwrite of that instant.
* Impure inputs (`Date.now()`, the random message-id generator) are threaded
  as explicit parameters.
-/

namespace Chat

/-! ## Conversation keys (four independent implementations in the source) -/

/-- Embeds `generateChatId` from `src/frontend/src/utils/chat.utils.ts`:
`[userId1, userId2].sort((a, b) => a - b)` followed by the template literal
`` `chat-${sortedIds[0]}-${sortedIds[1]}` ``.  A two-element JavaScript sort
with comparator `a - b` keeps the input order exactly when
`userId1 - userId2 ≤ 0`. -/
def generateChatId (userId1 userId2 : Int) : String :=
  let sortedIds := if userId1 ≤ userId2 then (userId1, userId2) else (userId2, userId1)
  "chat-" ++ toString sortedIds.1 ++ "-" ++ toString sortedIds.2

namespace MessagesStore

/-- Embeds `getConversationKey` from the client messages store
(`src/frontend/src/store/messages.store.ts`):
`userId1 < userId2 ? [userId1, userId2] : [userId2, userId1]` then
`` `conversation_${smaller}_${larger}` ``. -/
def getConversationKey (userId1 userId2 : Int) : String :=
  let p := if userId1 < userId2 then (userId1, userId2) else (userId2, userId1)
  "conversation_" ++ toString p.1 ++ "_" ++ toString p.2

end MessagesStore

namespace MessageService

/-- Embeds `MessageService.getConversationKey` from
`src/backend/src/services/message.service.ts`:
`userId1 < userId2 ? [userId1, userId2] : [userId2, userId1]` then
`` `${smaller}_${larger}` ``. -/
def getConversationKey (userId1 userId2 : Int) : String :=
  let p := if userId1 < userId2 then (userId1, userId2) else (userId2, userId1)
  toString p.1 ++ "_" ++ toString p.2

end MessageService

namespace SocketHandler

/-- Embeds `SocketHandler.getRoomName` from the backend socket handler
(`src/backend/src/handlers/socket.handler.ts`):
`userId1 < userId2 ? [userId1, userId2] : [userId2, userId1]` then
`` `conversation_${smaller}_${larger}` ``. -/
def getRoomName (userId1 userId2 : Int) : String :=
  let p := if userId1 < userId2 then (userId1, userId2) else (userId2, userId1)
  "conversation_" ++ toString p.1 ++ "_" ++ toString p.2

end SocketHandler

namespace SocketService

/-- Embeds `SocketService.getConversationKey` from the client socket service:
`userId < recipientId ? [userId, recipientId] : [recipientId, userId]` then
`` `${smaller}_${larger}` ``. -/
def getConversationKey (userId recipientId : Int) : String :=
  let p := if userId < recipientId then (userId, recipientId) else (recipientId, userId)
  toString p.1 ++ "_" ++ toString p.2

end SocketService

/-- The min-first pair used by every key builder is symmetric in its
arguments: strict-comparison form. -/
theorem minFirstPair_lt_symm (a b : Int) :
    (if a < b then (a, b) else (b, a)) = (if b < a then (b, a) else (a, b)) := by
  rcases lt_trichotomy a b with h | h | h
  · rw [if_pos h, if_neg (by omega)]
  · subst h; simp
  · rw [if_neg (by omega), if_pos h]

/-- The min-first pair used by `generateChatId` (non-strict comparison, from
the two-element JavaScript sort) is symmetric in its arguments. -/
theorem minFirstPair_le_symm (a b : Int) :
    (if a ≤ b then (a, b) else (b, a)) = (if b ≤ a then (b, a) else (a, b)) := by
  rcases lt_trichotomy a b with h | h | h
  · rw [if_pos (le_of_lt h), if_neg (by omega)]
  · subst h; simp
  · rw [if_neg (by omega), if_pos (le_of_lt h)]

/-- C1: For all integers `a` and `b` (including equal, zero, and negative
values), the conversation key built from `(a, b)` equals the conversation key
built from `(b, a)`, in every component that computes it: the client chat id
(`generateChatId`), the client store key (`messages.store`'s
`getConversationKey`), the server conversation key
(`MessageService.getConversationKey`), and the server room name
(`SocketHandler.getRoomName`). -/
theorem conversationKey_symmetric (a b : Int) :
    generateChatId a b = generateChatId b a ∧
    MessagesStore.getConversationKey a b = MessagesStore.getConversationKey b a ∧
    MessageService.getConversationKey a b = MessageService.getConversationKey b a ∧
    SocketHandler.getRoomName a b = SocketHandler.getRoomName b a := by
  refine ⟨?_, ?_, ?_, ?_⟩
  · unfold generateChatId
    rw [minFirstPair_le_symm]
  · unfold MessagesStore.getConversationKey
    rw [minFirstPair_lt_symm]
  · unfold MessageService.getConversationKey
    rw [minFirstPair_lt_symm]
  · unfold SocketHandler.getRoomName
    rw [minFirstPair_lt_symm]

/-! ## Message grouping (`src/frontend/src/utils/messageGrouping.utils.ts`) -/

/-- Embeds the frontend `Message` interface
(`src/frontend/src/types/message.types.ts`).  The `timestamp` field carries
the epoch value in milliseconds, i.e. `new Date(m.timestamp).getTime()`. -/
structure Message where
  id : String
  senderId : Int
  recipientId : Int
  content : String
  timestamp : Int
  deriving DecidableEq, Repr

/-- Embeds the `MessageGroup` type consumed by the chat view: a run of
messages plus the "show timestamp header" flag. -/
structure MessageGroup where
  messages : List Message
  showTimestamp : Bool
  deriving DecidableEq, Repr

/-- `const ONE_HOUR = 60 * 60 * 1000`. -/
def ONE_HOUR : Int := 60 * 60 * 1000

/-- `const TWENTY_SECONDS = 20 * 1000`. -/
def TWENTY_SECONDS : Int := 20 * 1000

/-- Stable insertion of a message into a timestamp-sorted list: an element
already present stays in front of the inserted one when their timestamps are
equal, matching the stability required of `Array.prototype.sort`. -/
def insertByTimestamp (m : Message) : List Message → List Message
  | [] => [m]
  | x :: xs =>
    if x.timestamp ≤ m.timestamp then x :: insertByTimestamp m xs
    else m :: x :: xs

/-- Embeds the sort in `groupMessages`:
`[...messages].sort((a, b) => getTime(a) - getTime(b))` — a stable ascending
sort on the timestamp (ECMAScript sort is stable, and a stable sort's output
is uniquely determined by the key order, so stable insertion sort computes
the same list). -/
def sortByTimestamp (messages : List Message) : List Message :=
  messages.foldl (fun acc m => insertByTimestamp m acc) []

/-- Embeds the loop body of `groupMessages` (lines 17–49): `prev` is the
previously processed message (`sortedMessages[i-1]`), `groups` the groups
pushed so far, `currentGroup` and `showTimestamp` the open group and its
header flag.  On exhaustion the final open group is pushed (the
`currentGroup.length > 0` guard is always true: the group is never empty). -/
def groupMessagesAux (prev : Message) (rest : List Message)
    (groups : List MessageGroup) (currentGroup : List Message)
    (showTimestamp : Bool) : List MessageGroup :=
  match rest with
  | [] => groups ++ [⟨currentGroup, showTimestamp⟩]
  | currentMsg :: rest =>
    let timeDiff := currentMsg.timestamp - prev.timestamp
    if timeDiff > ONE_HOUR then
      groupMessagesAux currentMsg rest (groups ++ [⟨currentGroup, showTimestamp⟩])
        [currentMsg] true
    else if currentMsg.senderId = prev.senderId ∧ timeDiff ≤ TWENTY_SECONDS ∧
        currentMsg.senderId ≠ 0 then
      groupMessagesAux currentMsg rest groups (currentGroup ++ [currentMsg])
        showTimestamp
    else
      groupMessagesAux currentMsg rest (groups ++ [⟨currentGroup, showTimestamp⟩])
        [currentMsg] false

/-- Embeds `groupMessages`: empty input gives `[]`; otherwise the sorted
list is seeded with its first message as the open group with header flag
`true`, and the loop body runs over the remainder. -/
def groupMessages (messages : List Message) : List MessageGroup :=
  match sortByTimestamp messages with
  | [] => []
  | m :: rest => groupMessagesAux m rest [] [m] true

/-- The three possible outcomes when a message is compared with its
immediate predecessor. -/
inductive GroupDecision where
  | newGroupWithHeader
  | appendToCurrent
  | newGroupNoHeader
  deriving DecidableEq, Repr

/-- The per-pair rule as the specification states it, written from the
spec's words (an independent rendering, compared with the code below): a new
group with header flag `true` exactly when the elapsed time strictly exceeds
one hour; otherwise append exactly when both messages have the same sender,
the elapsed time is at most 20 seconds, and the sender is not the system
sentinel `0`; otherwise a new group with header flag `false`. -/
def specDecision (prev currentMsg : Message) : GroupDecision :=
  let elapsed := currentMsg.timestamp - prev.timestamp
  if 60 * 60 * 1000 < elapsed then .newGroupWithHeader
  else if currentMsg.senderId = prev.senderId ∧ elapsed ≤ 20 * 1000 ∧
      currentMsg.senderId ≠ 0 then .appendToCurrent
  else .newGroupNoHeader

/-- C2: For every pair of consecutive messages in the timestamp-sorted
input, `groupMessages` starts a new group with header flag `true` exactly
when the elapsed time strictly exceeds one hour; otherwise it appends to the
current group exactly when both messages have the same sender, the elapsed
time is at most 20 seconds, and the sender is not the system sentinel;
otherwise it starts a new group with header flag `false`.  The first
conjunct states that every loop step of the code acts according to
`specDecision`, the spec-side rendering of the rule; the second that an
elapsed time of exactly one hour does not by itself start a new group with a
header; the third that exactly 20 seconds (same non-system sender) still
merges. -/
theorem groupMessages_consecutive_rule :
    (∀ prev currentMsg rest groups currentGroup showTimestamp,
      groupMessagesAux prev (currentMsg :: rest) groups currentGroup showTimestamp =
        match specDecision prev currentMsg with
        | .newGroupWithHeader =>
            groupMessagesAux currentMsg rest
              (groups ++ [⟨currentGroup, showTimestamp⟩]) [currentMsg] true
        | .appendToCurrent =>
            groupMessagesAux currentMsg rest groups
              (currentGroup ++ [currentMsg]) showTimestamp
        | .newGroupNoHeader =>
            groupMessagesAux currentMsg rest
              (groups ++ [⟨currentGroup, showTimestamp⟩]) [currentMsg] false) ∧
    (∀ prev currentMsg, currentMsg.timestamp - prev.timestamp = ONE_HOUR →
      specDecision prev currentMsg ≠ .newGroupWithHeader) ∧
    (∀ prev currentMsg, currentMsg.senderId = prev.senderId →
      currentMsg.timestamp - prev.timestamp = TWENTY_SECONDS →
      currentMsg.senderId ≠ 0 →
      specDecision prev currentMsg = .appendToCurrent) := by
  refine ⟨?_, ?_, ?_⟩
  · intro prev currentMsg rest groups currentGroup showTimestamp
    simp only [groupMessagesAux, specDecision, ONE_HOUR, TWENTY_SECONDS, gt_iff_lt]
    split_ifs <;> rfl
  · intro prev currentMsg h
    simp only [ONE_HOUR] at h
    unfold specDecision
    rw [if_neg (by omega)]
    split <;> simp
  · intro prev currentMsg hs ht hz
    simp only [TWENTY_SECONDS] at ht
    unfold specDecision
    rw [if_neg (by omega), if_pos ⟨hs, by omega, hz⟩]

/-- Witness for C2: a concrete application of the rule.  Two same-sender
non-system messages exactly one hour apart do not get a header-bearing new
group; exactly twenty seconds apart they merge. -/
theorem groupMessages_consecutive_rule_witness :
    specDecision ⟨"m1", 1, 2, "a", 0⟩ ⟨"m2", 1, 2, "b", 3600000⟩ ≠
        GroupDecision.newGroupWithHeader ∧
    specDecision ⟨"m1", 1, 2, "a", 0⟩ ⟨"m3", 1, 2, "c", 20000⟩ =
        GroupDecision.appendToCurrent :=
  ⟨groupMessages_consecutive_rule.2.1 ⟨"m1", 1, 2, "a", 0⟩ ⟨"m2", 1, 2, "b", 3600000⟩
      (by decide),
    groupMessages_consecutive_rule.2.2 ⟨"m1", 1, 2, "a", 0⟩ ⟨"m3", 1, 2, "c", 20000⟩
      (by decide) (by decide) (by decide)⟩

/-- Every group produced by the loop that holds at least two messages is
sender-homogeneous with a non-system sender: the merge branch is the only
way a group grows, and it requires the incoming message to share the
previous message's sender and to be non-system. -/
theorem groupMessagesAux_homogeneous (rest : List Message) :
    ∀ prev groups currentGroup showTimestamp,
      prev ∈ currentGroup →
      (∀ g ∈ groups, 2 ≤ g.messages.length →
        ∃ s, s ≠ 0 ∧ ∀ m ∈ g.messages, m.senderId = s) →
      (2 ≤ currentGroup.length →
        ∃ s, s ≠ 0 ∧ ∀ m ∈ currentGroup, m.senderId = s) →
      ∀ g ∈ groupMessagesAux prev rest groups currentGroup showTimestamp,
        2 ≤ g.messages.length →
        ∃ s, s ≠ 0 ∧ ∀ m ∈ g.messages, m.senderId = s := by
  induction rest with
  | nil =>
    intro prev groups currentGroup showTimestamp _ hgroups hcur g hg
    simp only [groupMessagesAux, List.mem_append, List.mem_singleton] at hg
    rcases hg with hg | hg
    · exact hgroups g hg
    · subst hg; exact hcur
  | cons currentMsg rest ih =>
    intro prev groups currentGroup showTimestamp hprev hgroups hcur g hg
    simp only [groupMessagesAux] at hg
    split_ifs at hg with h1 h2
    · -- more than an hour apart: push current group, open a fresh one
      refine ih currentMsg _ [currentMsg] true (List.mem_singleton_self _)
        ?_ (by intro h; simp at h) g hg
      intro g' hg'
      rcases List.mem_append.mp hg' with h | h
      · exact hgroups g' h
      · rcases List.mem_singleton.mp h with rfl
        exact hcur
    · -- same non-system sender within twenty seconds: merge
      obtain ⟨hsame, _, hnz⟩ := h2
      refine ih currentMsg _ (currentGroup ++ [currentMsg]) showTimestamp
        (List.mem_append_right _ (List.mem_singleton_self _)) hgroups ?_ g hg
      intro _
      refine ⟨currentMsg.senderId, hnz, ?_⟩
      intro m hm
      rcases List.mem_append.mp hm with hm | hm
      · -- members of the old open group all share the incoming sender
        rcases hlen : currentGroup.length with _ | n
        · rw [List.length_eq_zero] at hlen
          subst hlen; simp at hm
        · rcases n with _ | n
          · -- the open group was a singleton, necessarily `[prev]`
            rw [List.length_eq_one] at hlen
            obtain ⟨x, rfl⟩ := hlen
            rcases List.mem_singleton.mp hm with rfl
            rcases List.mem_singleton.mp hprev with rfl
            exact hsame.symm ▸ rfl
          · -- the open group already had two members, hence homogeneous
            obtain ⟨s, _, hall⟩ := hcur (by omega)
            rw [hall m hm, ← hall prev hprev, ← hsame]
      · rcases List.mem_singleton.mp hm with rfl; rfl
    · -- different sender or more than twenty seconds: push and open fresh
      refine ih currentMsg _ [currentMsg] false (List.mem_singleton_self _)
        ?_ (by intro h; simp at h) g hg
      intro g' hg'
      rcases List.mem_append.mp hg' with h | h
      · exact hgroups g' h
      · rcases List.mem_singleton.mp h with rfl
        exact hcur

/-- C3: every message whose sender is the reserved system sentinel
(senderId 0) ends up alone in its own group in the output of
`groupMessages`, for every input list. -/
theorem systemMessage_singleton_group (messages : List Message)
    (g : MessageGroup) (m : Message) (hg : g ∈ groupMessages messages)
    (hm : m ∈ g.messages) (hsys : m.senderId = 0) : g.messages = [m] := by
  unfold groupMessages at hg
  rcases hsort : sortByTimestamp messages with _ | ⟨first, rest⟩
  · rw [hsort] at hg; simp at hg
  · rw [hsort] at hg
    have hhom := groupMessagesAux_homogeneous rest first [] [first] true
      (List.mem_singleton_self _) (by intro g' hg'; simp at hg')
      (by intro h; simp at h) g hg
    rcases hlen : g.messages.length with _ | n
    · rw [List.length_eq_zero] at hlen
      rw [hlen] at hm; simp at hm
    · rcases n with _ | n
      · rw [List.length_eq_one] at hlen
        obtain ⟨x, hx⟩ := hlen
        rw [hx] at hm
        rcases List.mem_singleton.mp hm with rfl
        exact hx
      · obtain ⟨s, hs, hall⟩ := hhom (by omega)
        exact absurd (hsys ▸ hall m hm).symm hs

/-- Witness for C3: a system message one second away from another message is
still a singleton group. -/
theorem systemMessage_singleton_group_witness :
    (⟨"sys", 0, 0, "You matched", 1000⟩ : Message).senderId = 0 ∧
    (⟨[⟨"sys", 0, 0, "You matched", 1000⟩], false⟩ : MessageGroup) ∈
      groupMessages [⟨"u", 1, 2, "hi", 0⟩, ⟨"sys", 0, 0, "You matched", 1000⟩] ∧
    (⟨[⟨"sys", 0, 0, "You matched", 1000⟩], false⟩ : MessageGroup).messages =
      [⟨"sys", 0, 0, "You matched", 1000⟩] :=
  ⟨rfl, by decide,
    systemMessage_singleton_group
      [⟨"u", 1, 2, "hi", 0⟩, ⟨"sys", 0, 0, "You matched", 1000⟩]
      ⟨[⟨"sys", 0, 0, "You matched", 1000⟩], false⟩
      ⟨"sys", 0, 0, "You matched", 1000⟩ (by decide) (by decide) rfl⟩

/-! ## Association-list model of JavaScript `Map` -/

/-- `Map.get`: the value stored under the first matching key, if any. -/
def assocGet {κ ν : Type} [DecidableEq κ] (m : List (κ × ν)) (k : κ) : Option ν :=
  match m with
  | [] => none
  | (k', v) :: rest => if k' = k then some v else assocGet rest k

/-- `Map.set`: overwrite the first matching entry, or append a new one. -/
def assocSet {κ ν : Type} [DecidableEq κ] (m : List (κ × ν)) (k : κ) (v : ν) :
    List (κ × ν) :=
  match m with
  | [] => [(k, v)]
  | (k', v') :: rest =>
    if k' = k then (k, v) :: rest else (k', v') :: assocSet rest k v

/-- `Map.delete`: drop the first matching entry. -/
def assocRemove {κ ν : Type} [DecidableEq κ] (m : List (κ × ν)) (k : κ) :
    List (κ × ν) :=
  match m with
  | [] => []
  | (k', v') :: rest =>
    if k' = k then rest else (k', v') :: assocRemove rest k

theorem assocGet_assocSet_self {κ ν : Type} [DecidableEq κ]
    (m : List (κ × ν)) (k : κ) (v : ν) : assocGet (assocSet m k v) k = some v := by
  induction m with
  | nil => simp [assocSet, assocGet]
  | cons hd tl ih =>
    obtain ⟨k', v'⟩ := hd
    by_cases h : k' = k
    · simp [assocSet, assocGet, h]
    · simp [assocSet, assocGet, h, ih]

theorem assocGet_mem {κ ν : Type} [DecidableEq κ]
    {m : List (κ × ν)} {k : κ} {v : ν} (h : assocGet m k = some v) : (k, v) ∈ m := by
  induction m with
  | nil => simp [assocGet] at h
  | cons hd tl ih =>
    obtain ⟨k', v'⟩ := hd
    by_cases hk : k' = k
    · subst hk
      simp [assocGet] at h
      subst h
      exact List.mem_cons_self _ _
    · simp [assocGet, hk] at h
      exact List.mem_cons_of_mem _ (ih h)

/-- Keys of the association list are pairwise distinct — the invariant every
reachable `Map` model satisfies. -/
def keysNodup {κ ν : Type} (m : List (κ × ν)) : Prop :=
  (m.map Prod.fst).Nodup

theorem mem_keys_assocSet {κ ν : Type} [DecidableEq κ]
    {m : List (κ × ν)} {k x : κ} {v : ν}
    (h : x ∈ (assocSet m k v).map Prod.fst) :
    x ∈ m.map Prod.fst ∨ x = k := by
  induction m with
  | nil =>
    rw [assocSet, List.map_cons, List.map_nil] at h
    rcases List.mem_cons.mp h with h | h
    · exact Or.inr h
    · exact absurd h (List.not_mem_nil x)
  | cons hd tl ih =>
    obtain ⟨k', v'⟩ := hd
    simp only [assocSet] at h
    by_cases hk : k' = k
    · rw [if_pos hk, List.map_cons] at h
      rcases List.mem_cons.mp h with h | h
      · exact Or.inr h
      · left
        rw [List.map_cons]
        exact List.mem_cons_of_mem _ h
    · rw [if_neg hk, List.map_cons] at h
      rcases List.mem_cons.mp h with h | h
      · left
        rw [List.map_cons, h]
        exact List.mem_cons_self _ _
      · rcases ih h with h' | h'
        · left
          rw [List.map_cons]
          exact List.mem_cons_of_mem _ h'
        · exact Or.inr h'

theorem keysNodup_assocSet {κ ν : Type} [DecidableEq κ]
    {m : List (κ × ν)} (k : κ) (v : ν) (h : keysNodup m) :
    keysNodup (assocSet m k v) := by
  induction m with
  | nil => simp [assocSet, keysNodup]
  | cons hd tl ih =>
    obtain ⟨k', v'⟩ := hd
    simp only [keysNodup, List.map_cons, List.nodup_cons] at h
    by_cases hk : k' = k
    · subst hk
      simpa [assocSet, keysNodup] using h
    · have htl := ih h.2
      simp only [assocSet, hk, if_false, keysNodup, List.map_cons, List.nodup_cons]
      refine ⟨?_, htl⟩
      intro hmem
      rcases mem_keys_assocSet hmem with h' | h'
      · exact h.1 h'
      · exact hk h'

theorem assocGet_eq_none_of_not_mem_keys {κ ν : Type} [DecidableEq κ]
    {m : List (κ × ν)} {k : κ} (h : k ∉ m.map Prod.fst) : assocGet m k = none := by
  induction m with
  | nil => rfl
  | cons hd tl ih =>
    obtain ⟨k', v'⟩ := hd
    rw [List.map_cons] at h
    have h1 : k' ≠ k := by
      intro he
      subst he
      exact h (List.mem_cons_self _ _)
    simp only [assocGet]
    rw [if_neg h1]
    exact ih (fun he => h (List.mem_cons_of_mem _ he))

theorem assocGet_assocRemove_self {κ ν : Type} [DecidableEq κ]
    {m : List (κ × ν)} {k : κ} (hnd : keysNodup m) :
    assocGet (assocRemove m k) k = none := by
  induction m with
  | nil => rfl
  | cons hd tl ih =>
    obtain ⟨k', v'⟩ := hd
    simp only [keysNodup, List.map_cons, List.nodup_cons] at hnd
    simp only [assocRemove]
    by_cases hk : k' = k
    · rw [if_pos hk]
      exact assocGet_eq_none_of_not_mem_keys (hk ▸ hnd.1)
    · rw [if_neg hk]
      simp only [assocGet]
      rw [if_neg hk]
      exact ih hnd.2

theorem mem_keys_assocRemove {κ ν : Type} [DecidableEq κ]
    {m : List (κ × ν)} {k x : κ}
    (h : x ∈ (assocRemove m k).map Prod.fst) : x ∈ m.map Prod.fst := by
  induction m with
  | nil => simp [assocRemove] at h
  | cons hd tl ih =>
    obtain ⟨k', v'⟩ := hd
    simp only [assocRemove] at h
    rw [List.map_cons]
    by_cases hk : k' = k
    · rw [if_pos hk] at h
      exact List.mem_cons_of_mem _ h
    · rw [if_neg hk, List.map_cons] at h
      rcases List.mem_cons.mp h with h | h
      · rw [h]
        exact List.mem_cons_self _ _
      · exact List.mem_cons_of_mem _ (ih h)

theorem keysNodup_assocRemove {κ ν : Type} [DecidableEq κ]
    {m : List (κ × ν)} (k : κ) (h : keysNodup m) :
    keysNodup (assocRemove m k) := by
  induction m with
  | nil => simp [assocRemove, keysNodup]
  | cons hd tl ih =>
    obtain ⟨k', v'⟩ := hd
    simp only [keysNodup, List.map_cons, List.nodup_cons] at h
    by_cases hk : k' = k
    · simp only [assocRemove, if_pos hk]
      exact h.2
    · have htl := ih h.2
      simp only [assocRemove, if_neg hk, keysNodup, List.map_cons, List.nodup_cons]
      exact ⟨fun hmem => h.1 (mem_keys_assocRemove hmem), htl⟩

theorem assocGet_eq_of_mem {κ ν : Type} [DecidableEq κ]
    {m : List (κ × ν)} {k : κ} {v : ν} (hnd : keysNodup m) (hm : (k, v) ∈ m) :
    assocGet m k = some v := by
  induction m with
  | nil => simp at hm
  | cons hd tl ih =>
    obtain ⟨k', v'⟩ := hd
    simp only [keysNodup, List.map_cons, List.nodup_cons] at hnd
    rcases List.mem_cons.mp hm with h | h
    · have hk : k' = k := (congrArg Prod.fst h).symm
      have hv : v' = v := (congrArg Prod.snd h).symm
      subst hk
      subst hv
      simp [assocGet]
    · by_cases hk : k' = k
      · subst hk
        exact absurd (List.mem_map_of_mem Prod.fst h) hnd.1
      · simp only [assocGet]
        rw [if_neg hk]
        exact ih hnd.2 h

/-! ## Backend message service (`src/backend/src/services/message.service.ts`)

Impure inputs are threaded explicitly: `now` is the epoch value in
milliseconds of `Date.now()` / `new Date()`, and `gid n` is the `n`-th id
produced by `generateMessageId` during the call (a time-plus-random string;
its construction is irrelevant to the claims settled here). -/

/-- Embeds `CreateMessageDto` from `src/backend/src/types/message.types.ts`. -/
structure CreateMessageDto where
  senderId : Int
  recipientId : Int
  content : String
  deriving DecidableEq, Repr

/-- A message draft without an id, as produced by `createMockConversation`
(`Omit<Message, "id">`). -/
structure MessageDraft where
  senderId : Int
  recipientId : Int
  content : String
  timestamp : Int
  deriving DecidableEq, Repr

/-- Embeds `createMockConversation` from
`src/backend/src/mocks/conversation.mocks.ts`: three canned messages at
`now − 6h`, `now − 5h`, and `now − 10s`. -/
def createMockConversation (now : Int) (user1 user2 : Int) : List MessageDraft :=
  [⟨user2, user1, "Hey! Did you also go to Oxford?", now - 6 * 60 * 60 * 1000⟩,
   ⟨user1, user2, "Yes 😎 Are you going to the food festival on Sunday?",
     now - 5 * 60 * 60 * 1000⟩,
   ⟨user2, user1, "I am! 😊 See you there for a coffee?", now - 10 * 1000⟩]

namespace MessageService

/-- The `conversations` map of `MessageService` (`Map<string, Message[]>`). -/
structure State where
  conversations : List (String × List Message)
  deriving Repr

/-- Epoch milliseconds of `"2020-01-07T20:18:00.000Z"`, the fixed timestamp
of the seeded system message. -/
def SYSTEM_MESSAGE_TS : Int := 1578428280000

/-- The sequence `getConversation` seeds an untouched conversation with: a
system message (`senderId = MessageType.SYSTEM = 0`) followed by the mock
conversation, each with a freshly generated id. -/
def seedConversation (now : Int) (gid : Nat → String) (userId1 userId2 : Int) :
    List Message :=
  ⟨gid 0, 0, 0, "You matched ❤️", SYSTEM_MESSAGE_TS⟩ ::
    (createMockConversation now userId1 userId2).enum.map
      (fun p => ⟨gid (p.1 + 1), p.2.senderId, p.2.recipientId, p.2.content,
        p.2.timestamp⟩)

/-- Embeds `MessageService.getConversation` (lines 22–51): look the key up;
when the entry is missing or empty, build the system message plus the mock
conversation, store it, and return it; otherwise return the stored
sequence unchanged. -/
def getConversation (st : State) (now : Int) (gid : Nat → String)
    (userId1 userId2 : Int) : List Message × State :=
  let key := getConversationKey userId1 userId2
  let seeded :=
    let messages := seedConversation now gid userId1 userId2
    (messages, State.mk (assocSet st.conversations key messages))
  match assocGet st.conversations key with
  | none => seeded
  | some messages => if messages.length = 0 then seeded else (messages, st)

/-- Embeds `MessageService.addMessage` (lines 58–73): build the message with
a fresh id and the current timestamp, append it to the conversation under the
normalized key (an absent conversation starts from `[]`), store, return. -/
def addMessage (st : State) (now : Int) (gid : Nat → String)
    (dto : CreateMessageDto) : Message × State :=
  let key := getConversationKey dto.senderId dto.recipientId
  let newMessage : Message :=
    ⟨gid 0, dto.senderId, dto.recipientId, dto.content, now⟩
  let messages := (assocGet st.conversations key).getD []
  let messages := messages ++ [newMessage]
  (newMessage, State.mk (assocSet st.conversations key messages))

end MessageService

namespace SocketHandler

/-- A room-scoped broadcast performed by the socket handler. -/
structure RoomBroadcast where
  room : String
  event : String
  message : Message
  deriving DecidableEq, Repr

/-- Embeds the `message:send` handler of `SocketHandler.handleConnection`
(lines 770–784): call `messageService.addMessage` with the payload, then
emit `message:new` with the created message to every client in the
conversation's room.  There is no validation of any kind on the payload. -/
def handleMessageSend (st : MessageService.State) (now : Int)
    (gid : Nat → String) (data : CreateMessageDto) :
    Message × MessageService.State × List RoomBroadcast :=
  let (newMessage, st') := MessageService.addMessage st now gid data
  let roomName := getRoomName data.senderId data.recipientId
  (newMessage, st', [⟨roomName, "message:new", newMessage⟩])

end SocketHandler

/-- C5 counterexample: the claim "for every pair of user ids whose
conversation has never been written to, the history operation returns an
empty sequence of messages" is false on the code.  On the concrete
never-written pair `(1, 2)` the history operation returns a non-empty,
4-element seeded conversation (system message plus the three mock
messages). -/
theorem getConversation_unwritten_notEmpty :
    ((MessageService.getConversation ⟨[]⟩ 21600000
        (fun n => "msg-" ++ toString (n + 1)) 1 2).1).length = 4 ∧
    (MessageService.getConversation ⟨[]⟩ 21600000
        (fun n => "msg-" ++ toString (n + 1)) 1 2).1 ≠ [] := by
  constructor
  · rfl
  · decide

/-- C5 (amended): for every pair of user ids whose conversation has never
been written to, the history operation does not error and returns the
non-empty seeded conversation — a system message (sender 0) followed by the
three mock messages — which it also stores under the pair's key. -/
theorem getConversation_unwritten_seeds (st : MessageService.State)
    (now : Int) (gid : Nat → String) (userId1 userId2 : Int)
    (h : assocGet st.conversations
      (MessageService.getConversationKey userId1 userId2) = none) :
    (MessageService.getConversation st now gid userId1 userId2).1 =
      MessageService.seedConversation now gid userId1 userId2 ∧
    (MessageService.getConversation st now gid userId1 userId2).1 ≠ [] ∧
    ((MessageService.getConversation st now gid userId1 userId2).1.head?.map
      Message.senderId) = some 0 ∧
    assocGet (MessageService.getConversation st now gid userId1 userId2).2.conversations
        (MessageService.getConversationKey userId1 userId2) =
      some (MessageService.seedConversation now gid userId1 userId2) := by
  have hmain : MessageService.getConversation st now gid userId1 userId2 =
      (MessageService.seedConversation now gid userId1 userId2,
        MessageService.State.mk (assocSet st.conversations
          (MessageService.getConversationKey userId1 userId2)
          (MessageService.seedConversation now gid userId1 userId2))) := by
    simp only [MessageService.getConversation, h]
  rw [hmain]
  refine ⟨rfl, ?_, rfl, ?_⟩
  · simp [MessageService.seedConversation]
  · exact assocGet_assocSet_self ..

/-- Witness for C5 (amended), at the never-written pair `(3, 7)`. -/
theorem getConversation_unwritten_seeds_witness :
    (MessageService.getConversation ⟨[]⟩ 21600000 (fun n => toString n) 3 7).1 =
      MessageService.seedConversation 21600000 (fun n => toString n) 3 7 ∧
    (MessageService.getConversation ⟨[]⟩ 21600000 (fun n => toString n) 3 7).1 ≠ [] ∧
    ((MessageService.getConversation ⟨[]⟩ 21600000
        (fun n => toString n) 3 7).1.head?.map Message.senderId) = some 0 ∧
    assocGet (MessageService.getConversation ⟨[]⟩ 21600000
        (fun n => toString n) 3 7).2.conversations
        (MessageService.getConversationKey 3 7) =
      some (MessageService.seedConversation 21600000 (fun n => toString n) 3 7) :=
  getConversation_unwritten_seeds ⟨[]⟩ 21600000 (fun n => toString n) 3 7 rfl

/-- C6 counterexample: the claim "for every send whose content is empty, no
Message is created and no conversation is extended or broadcast to" is false
on the code.  A concrete `message:send` with empty content on a fresh
service creates a message, extends the conversation keyed `"1_2"`, and
broadcasts `message:new` to room `"conversation_1_2"`. -/
theorem handleMessageSend_empty_content_creates :
    (SocketHandler.handleMessageSend ⟨[]⟩ 1000 (fun n => "id" ++ toString n)
        ⟨1, 2, ""⟩).2.2 =
      [⟨"conversation_1_2", "message:new", ⟨"id0", 1, 2, "", 1000⟩⟩] ∧
    assocGet (SocketHandler.handleMessageSend ⟨[]⟩ 1000
        (fun n => "id" ++ toString n) ⟨1, 2, ""⟩).2.1.conversations "1_2" =
      some [⟨"id0", 1, 2, "", 1000⟩] := by
  constructor <;> decide

/-- C6 (amended): the server send operation performs no content validation
at all: for every send — in particular one whose content is empty — a
Message carrying exactly the given content is created, appended to the
conversation keyed by the normalized pair (created if absent), and broadcast
as `message:new` to the conversation's room. -/
theorem handleMessageSend_no_validation (st : MessageService.State)
    (now : Int) (gid : Nat → String) (data : CreateMessageDto) :
    (SocketHandler.handleMessageSend st now gid data).1 =
      ⟨gid 0, data.senderId, data.recipientId, data.content, now⟩ ∧
    assocGet (SocketHandler.handleMessageSend st now gid data).2.1.conversations
        (MessageService.getConversationKey data.senderId data.recipientId) =
      some ((assocGet st.conversations
          (MessageService.getConversationKey data.senderId data.recipientId)).getD []
        ++ [(SocketHandler.handleMessageSend st now gid data).1]) ∧
    (SocketHandler.handleMessageSend st now gid data).2.2 =
      [⟨SocketHandler.getRoomName data.senderId data.recipientId, "message:new",
        (SocketHandler.handleMessageSend st now gid data).1⟩] := by
  refine ⟨rfl, ?_, rfl⟩
  unfold SocketHandler.handleMessageSend MessageService.addMessage
  exact assocGet_assocSet_self ..

/-! ## Server typing state machine (`SocketHandler`, typing events)

The handler keeps `typingUsers : Map<roomId, Map<userId, timeout>>`.  The
nested map is modelled flat, keyed by `(roomName, userId)`; a pending
`setTimeout` handle is modelled by the pair of its absolute expiry instant
and the `recipientId` captured by its callback.  `typing:start` at instant
`t` performs `clearTimeout` on any existing handle for the pair and
`setTimeout(..., 5000)`, i.e. overwrites the entry with expiry `t + 5000`;
`typing:stop` performs `clearTimeout` and deletes the entry. -/

namespace SocketHandler

/-- Embeds the `TypingData` payload (`{userId, recipientId, userName}`). -/
structure TypingData where
  userId : Int
  recipientId : Int
  userName : String
  deriving DecidableEq, Repr

/-- The `5000` in `setTimeout(() => {...}, 5000)` — the server's failsafe
expiry duration D_server. -/
def TYPING_TIMEOUT_MS : Int := 5000

/-- The flattened `typingUsers` map: `(roomName, userId) ↦ (expiry instant,
captured recipientId)`. -/
abbrev TypingState : Type := List ((String × Int) × (Int × Int))

/-- A room-scoped emission of the typing machinery
(`socket.to(roomName).emit(...)`). -/
inductive TypingEmit where
  | typingStarted (room : String) (d : TypingData)
  | typingStopped (room : String) (userId recipientId : Int)
  deriving DecidableEq, Repr

/-- Embeds the `typing:start` handler (lines 786–816): clear any existing
timeout for `(room, userId)`, arm a fresh 5-second one, and broadcast
`typing:start` to the other room members. -/
def handleTypingStart (t : Int) (d : TypingData) (st : TypingState) :
    TypingState × List TypingEmit :=
  let roomName := getRoomName d.userId d.recipientId
  (assocSet st (roomName, d.userId) (t + TYPING_TIMEOUT_MS, d.recipientId),
   [.typingStarted roomName d])

/-- Embeds the `typing:stop` handler (lines 818–835): clear the pending
timeout for `(room, userId)` if present, and broadcast `typing:stop`. -/
def handleTypingStop (d : TypingData) (st : TypingState) :
    TypingState × List TypingEmit :=
  let roomName := getRoomName d.userId d.recipientId
  (assocRemove st (roomName, d.userId),
   [.typingStopped roomName d.userId d.recipientId])

/-- Firing of due timers: at instant `u`, every pending entry whose expiry
is at most `u` fires its callback — the entry is deleted and `typing:stop`
is broadcast with the captured recipientId (lines 803–810). -/
def expireDue (u : Int) : TypingState → TypingState × List TypingEmit
  | [] => ([], [])
  | ((roomName, userId), (expiry, recipientId)) :: rest =>
    let r := expireDue u rest
    if expiry ≤ u then
      (r.1, .typingStopped roomName userId recipientId :: r.2)
    else
      (((roomName, userId), (expiry, recipientId)) :: r.1, r.2)

/-- A timestamped typing command arriving at the handler. -/
inductive TypingEvent where
  | start (t : Int) (d : TypingData)
  | stop (t : Int) (d : TypingData)
  deriving DecidableEq, Repr

/-- State transition of one event (broadcasts dropped). -/
def applyTypingEvent (st : TypingState) : TypingEvent → TypingState
  | .start t d => (handleTypingStart t d st).1
  | .stop _ d => (handleTypingStop d st).1

/-- The state after a sequence of typing events, starting from the empty
`typingUsers` map the handler is constructed with. -/
def runTypingEvents (evts : List TypingEvent) : TypingState :=
  evts.foldl applyTypingEvent ([] : TypingState)

/-- The expiry instant of the pending failsafe timer for the pair addressed
by `d`, if one is armed. -/
def pendingExpiry (st : TypingState) (d : TypingData) : Option Int :=
  (assocGet st (getRoomName d.userId d.recipientId, d.userId)).map Prod.fst

theorem keysNodup_applyTypingEvent (st : TypingState) (ev : TypingEvent)
    (h : keysNodup st) : keysNodup (applyTypingEvent st ev) := by
  cases ev with
  | start t d => exact keysNodup_assocSet _ _ h
  | stop t d => exact keysNodup_assocRemove _ h

theorem keysNodup_runTypingEvents (evts : List TypingEvent) :
    keysNodup (runTypingEvents evts) := by
  suffices h : ∀ st : TypingState, keysNodup st →
      keysNodup (evts.foldl applyTypingEvent st) from
    h [] (by simp [keysNodup])
  induction evts with
  | nil => intro st h; exact h
  | cons ev evts ih =>
    intro st h
    exact ih _ (keysNodup_applyTypingEvent st ev h)

/-- `typing:stop` emissions of `expireDue` correspond exactly to stored
entries that are due. -/
theorem expireDue_emit_iff (u : Int) (st : TypingState)
    (roomName : String) (userId recipientId : Int) :
    TypingEmit.typingStopped roomName userId recipientId ∈ (expireDue u st).2 ↔
      ∃ expiry, ((roomName, userId), (expiry, recipientId)) ∈ st ∧ expiry ≤ u := by
  induction st with
  | nil => simp [expireDue]
  | cons hd tl ih =>
    obtain ⟨⟨room', user'⟩, ⟨expiry', recipient'⟩⟩ := hd
    simp only [expireDue]
    by_cases hdue : expiry' ≤ u
    · rw [if_pos hdue]
      simp only [List.mem_cons, ih, TypingEmit.typingStopped.injEq, Prod.mk.injEq]
      constructor
      · rintro (⟨rfl, rfl, rfl⟩ | ⟨e, he, hu⟩)
        · exact ⟨expiry', Or.inl ⟨⟨rfl, rfl⟩, rfl, rfl⟩, hdue⟩
        · exact ⟨e, Or.inr he, hu⟩
      · rintro ⟨e, he | he, hu⟩
        · obtain ⟨⟨hr, hu'⟩, he', hrec⟩ := he
          exact Or.inl ⟨hr, hu', hrec⟩
        · exact Or.inr ⟨e, he, hu⟩
    · rw [if_neg hdue]
      simp only [List.mem_cons, ih, Prod.mk.injEq]
      constructor
      · rintro ⟨e, he, hu⟩
        exact ⟨e, Or.inr he, hu⟩
      · rintro ⟨e, he | he, hu⟩
        · obtain ⟨⟨hr, hu'⟩, he', hrec⟩ := he
          exact absurd (he' ▸ hu) hdue
        · exact ⟨e, he, hu⟩

theorem runTypingEvents_append_one (evts : List TypingEvent) (e : TypingEvent) :
    runTypingEvents (evts ++ [e]) = applyTypingEvent (runTypingEvents evts) e := by
  unfold runTypingEvents
  rw [List.foldl_append]
  rfl

theorem assocGet_runTypingEvents_start (evts : List TypingEvent) (t : Int)
    (d : TypingData) :
    assocGet (runTypingEvents (evts ++ [.start t d]))
        (getRoomName d.userId d.recipientId, d.userId) =
      some (t + TYPING_TIMEOUT_MS, d.recipientId) := by
  rw [runTypingEvents_append_one]
  simp only [applyTypingEvent, handleTypingStart]
  exact assocGet_assocSet_self ..

end SocketHandler

/-- C4: In the server typing state machine, each typing start for a
(room, userId) pair cancels any pending expiry timer for that pair and arms
a fresh one of exactly D_server = 5000 ms: after any event history ending in
a start at instant `t`, the pending expiry for the pair is exactly
`t + D_server` (so the countdown is reset, not cumulative), firing the due
timers at any instant strictly before `t + D_server` emits no automatic
`typing:stop` for the pair (never earlier), and firing them at exactly
`t + D_server` does emit it; a history ending in a stop leaves no pending
timer. -/
theorem serverTyping_start_resets_timer :
    SocketHandler.TYPING_TIMEOUT_MS = 5000 ∧
    (∀ (evts : List SocketHandler.TypingEvent) (t : Int)
        (d : SocketHandler.TypingData),
      SocketHandler.pendingExpiry
          (SocketHandler.runTypingEvents (evts ++ [.start t d])) d =
        some (t + SocketHandler.TYPING_TIMEOUT_MS)) ∧
    (∀ (evts : List SocketHandler.TypingEvent) (t : Int)
        (d : SocketHandler.TypingData),
      SocketHandler.pendingExpiry
          (SocketHandler.runTypingEvents (evts ++ [.stop t d])) d = none) ∧
    (∀ (evts : List SocketHandler.TypingEvent) (t u : Int)
        (d : SocketHandler.TypingData),
      u < t + SocketHandler.TYPING_TIMEOUT_MS →
      SocketHandler.TypingEmit.typingStopped
          (SocketHandler.getRoomName d.userId d.recipientId) d.userId
          d.recipientId ∉
        (SocketHandler.expireDue u
          (SocketHandler.runTypingEvents (evts ++ [.start t d]))).2) ∧
    (∀ (evts : List SocketHandler.TypingEvent) (t : Int)
        (d : SocketHandler.TypingData),
      SocketHandler.TypingEmit.typingStopped
          (SocketHandler.getRoomName d.userId d.recipientId) d.userId
          d.recipientId ∈
        (SocketHandler.expireDue (t + SocketHandler.TYPING_TIMEOUT_MS)
          (SocketHandler.runTypingEvents (evts ++ [.start t d]))).2) := by
  refine ⟨rfl, ?_, ?_, ?_, ?_⟩
  · intro evts t d
    unfold SocketHandler.pendingExpiry
    rw [SocketHandler.assocGet_runTypingEvents_start]
    rfl
  · intro evts t d
    unfold SocketHandler.pendingExpiry
    rw [SocketHandler.runTypingEvents_append_one]
    simp only [SocketHandler.applyTypingEvent, SocketHandler.handleTypingStop]
    rw [assocGet_assocRemove_self (SocketHandler.keysNodup_runTypingEvents evts)]
    rfl
  · intro evts t u d hu hmem
    obtain ⟨e, hin, hle⟩ := (SocketHandler.expireDue_emit_iff ..).mp hmem
    have hnd := SocketHandler.keysNodup_runTypingEvents (evts ++ [.start t d])
    have hget := assocGet_eq_of_mem hnd hin
    rw [SocketHandler.assocGet_runTypingEvents_start] at hget
    simp only [Option.some.injEq, Prod.mk.injEq] at hget
    simp only [SocketHandler.TYPING_TIMEOUT_MS] at hu hget
    omega
  · intro evts t d
    exact (SocketHandler.expireDue_emit_iff ..).mpr
      ⟨t + SocketHandler.TYPING_TIMEOUT_MS,
        assocGet_mem (SocketHandler.assocGet_runTypingEvents_start evts t d),
        le_refl _⟩

/-- Witness for C4: the spec's refresh scenario.  Start at instant 0, start
again at 2500 (D_server/2): the pending expiry is 7500 — a full D_server
after the second start — firing at 5000 emits no automatic stop for the
pair, and firing at 7500 does. -/
theorem serverTyping_start_resets_timer_witness :
    SocketHandler.pendingExpiry
        (SocketHandler.runTypingEvents
          [.start 0 ⟨1, 2, "John"⟩, .start 2500 ⟨1, 2, "John"⟩]) ⟨1, 2, "John"⟩ =
      some 7500 ∧
    SocketHandler.TypingEmit.typingStopped (SocketHandler.getRoomName 1 2) 1 2 ∉
      (SocketHandler.expireDue 5000
        (SocketHandler.runTypingEvents
          [.start 0 ⟨1, 2, "John"⟩, .start 2500 ⟨1, 2, "John"⟩])).2 ∧
    SocketHandler.TypingEmit.typingStopped (SocketHandler.getRoomName 1 2) 1 2 ∈
      (SocketHandler.expireDue 7500
        (SocketHandler.runTypingEvents
          [.start 0 ⟨1, 2, "John"⟩, .start 2500 ⟨1, 2, "John"⟩])).2 := by
  refine ⟨?_, ?_, ?_⟩
  · rw [show ([.start 0 ⟨1, 2, "John"⟩, .start 2500 ⟨1, 2, "John"⟩] :
        List SocketHandler.TypingEvent) =
        [.start 0 ⟨1, 2, "John"⟩] ++ [.start 2500 ⟨1, 2, "John"⟩] from rfl,
      serverTyping_start_resets_timer.2.1 [.start 0 ⟨1, 2, "John"⟩] 2500
        ⟨1, 2, "John"⟩]
    decide
  · exact serverTyping_start_resets_timer.2.2.2.1 [.start 0 ⟨1, 2, "John"⟩] 2500
      5000 ⟨1, 2, "John"⟩ (by decide)
  · exact serverTyping_start_resets_timer.2.2.2.2 [.start 0 ⟨1, 2, "John"⟩] 2500
      ⟨1, 2, "John"⟩

/-! ## Client typing coordinator (`useTyping.ts` + `useChatActions`)

The two hooks share four pieces of mutable state: `useTyping`'s
`isTypingRef` and inactivity timeout, and `useChatActions`'s throttle
timestamp `lastTypingRef` and its own inactivity timeout.  Timers are
modelled by their absolute expiry instants; emissions are the calls into
the socket service (`socketService.startTyping` / `socketService.stopTyping`). -/

namespace ClientTyping

/-- The combined mutable state of `useTyping` and `useChatActions`. -/
structure State where
  isTyping : Bool
  hookTimeout : Option Int
  lastTyping : Int
  actionTimeout : Option Int
  deriving DecidableEq, Repr

/-- A call into the socket service made by the coordinator. -/
inductive ClientEmit where
  | typingStart (userId recipientId : Int) (userName : String)
  | typingStop (userId recipientId : Int)
  deriving DecidableEq, Repr

/-- Embeds `useTyping.startTyping` (lines 66–81): bail out when no recipient
is selected or already typing; otherwise mark typing, call
`socketService.startTyping`, and (re)arm the 3-second auto-stop timer. -/
def startTyping (currentUserId : Int) (userName : String)
    (recipientId : Option Int) (now : Int) (st : State) :
    State × List ClientEmit :=
  match recipientId with
  | none => (st, [])
  | some rid =>
    if st.isTyping then (st, [])
    else
      ({ st with isTyping := true, hookTimeout := some (now + 3000) },
       [.typingStart currentUserId rid userName])

/-- Embeds `useTyping.stopTyping` (lines 83–94): bail out when no recipient
is selected or not currently typing; otherwise clear the typing mark, call
`socketService.stopTyping`, and cancel the pending inactivity timer. -/
def stopTyping (currentUserId : Int) (recipientId : Option Int) (st : State) :
    State × List ClientEmit :=
  match recipientId with
  | none => (st, [])
  | some rid =>
    if st.isTyping then
      ({ st with isTyping := false, hookTimeout := none },
       [.typingStop currentUserId rid])
    else (st, [])

/-- Embeds `useChatActions.handleTypingChange` (lines 47–73).  With
`isTyping = true`: call `startTyping` only when more than 500 ms have passed
since the last such call (recording the time), then re-arm the 2-second
inactivity timer either way.  With `isTyping = false`: call `stopTyping`
unconditionally and cancel the inactivity timer. -/
def handleTypingChange (currentUserId : Int) (userName : String)
    (recipientId : Option Int) (now : Int) (isTyping : Bool) (st : State) :
    State × List ClientEmit :=
  if isTyping then
    let r :=
      if now - st.lastTyping > 500 then
        let r' := startTyping currentUserId userName recipientId now st
        ({ r'.1 with lastTyping := now }, r'.2)
      else (st, [])
    ({ r.1 with actionTimeout := some (now + 2000) }, r.2)
  else
    let r := stopTyping currentUserId recipientId st
    ({ r.1 with actionTimeout := none }, r.2)

end ClientTyping

/-- C7: In the client typing coordinator, every call reporting that typing
transitioned to false (i.e. made while the coordinator is in the typing
state, with a recipient selected) emits exactly one typing-stop immediately,
at any instant whatsoever — in particular regardless of how recently a start
was emitted (`lastTyping` is unconstrained, so stop is never throttled) —
and cancels both pending inactivity timers. -/
theorem clientTyping_stop_immediate (currentUserId : Int) (userName : String)
    (recipientId : Int) (now : Int) (st : ClientTyping.State)
    (h : st.isTyping = true) :
    ClientTyping.handleTypingChange currentUserId userName (some recipientId)
        now false st =
      ({ st with isTyping := false, hookTimeout := none, actionTimeout := none },
       [ClientTyping.ClientEmit.typingStop currentUserId recipientId]) := by
  simp only [ClientTyping.handleTypingChange, ClientTyping.stopTyping, h,
    if_true, Bool.false_eq_true, if_false]

/-- Witness for C7: a stop arriving 100 ms after the last recorded start
(well inside the 500 ms throttle window) still emits immediately and clears
both timers. -/
theorem clientTyping_stop_immediate_witness :
    ClientTyping.handleTypingChange 1 "John" (some 2) 1000 false
        ⟨true, some 3900, 900, some 2900⟩ =
      (⟨false, none, 900, none⟩, [ClientTyping.ClientEmit.typingStop 1 2]) :=
  clientTyping_stop_immediate 1 "John" 2 1000 ⟨true, some 3900, 900, some 2900⟩ rfl

/-! ## Client connection registry (`SocketService`, `socket.service.ts`) -/

namespace SocketService

/-- The model of the underlying socket.io-client object held in
`this.socket`: for the claims below only its `connected` flag matters. -/
structure Transport where
  connected : Bool
  deriving DecidableEq, Repr

/-- The mutable fields of the `SocketService` singleton: `socket`,
`currentUserId`, `joinedConversations`, `isConnecting`. -/
structure State where
  socket : Option Transport
  currentUserId : Option Int
  joinedConversations : List String
  isConnecting : Bool
  deriving DecidableEq, Repr

/-- Embeds the transport "disconnect" listener installed by `connect`
(lines 58–61): the transport drops `socket.connected` and the handler body
only logs and resets `isConnecting`. -/
def onDisconnectEvent (st : State) : State :=
  { st with isConnecting := false,
            socket := st.socket.map (fun _ => ⟨false⟩) }

/-- Embeds `SocketService.disconnect` (lines 81–88): when a socket exists,
tear it down and clear the identified user and the joined-rooms set;
otherwise do nothing. -/
def disconnect (st : State) : State :=
  match st.socket with
  | none => st
  | some _ =>
    { st with socket := none, currentUserId := none, joinedConversations := [] }

/-- Embeds `SocketService.isConnected` (lines 168–170):
`this.socket?.connected ?? false`. -/
def isConnected (st : State) : Bool :=
  match st.socket with
  | none => false
  | some t => t.connected

/-- Embeds `SocketService.emit` (lines 146–152): when the socket is absent
or not connected, only `console.warn` runs — no event leaves the client, no
state is touched, nothing is queued; otherwise the event is emitted. -/
def emit {α : Type} (st : State) (event : String) (data : α) :
    State × List (String × α) :=
  if isConnected st then (st, [(event, data)]) else (st, [])

/-- The `message:send` payload `{senderId, recipientId, content}`. -/
structure MessageSendPayload where
  senderId : Int
  recipientId : Int
  content : String
  deriving DecidableEq, Repr

/-- Embeds `SocketService.sendMessage` (lines 177–180): a bare `emit` of
`message:send` with the payload. -/
def sendMessage (st : State) (senderId recipientId : Int) (content : String) :
    State × List (String × MessageSendPayload) :=
  emit st "message:send" ⟨senderId, recipientId, content⟩

end SocketService

/-- C8: when the transport fires its disconnected event, the client
connection registry's joined-rooms set and identified user id are left
unchanged; an explicit `disconnect()` call (with a socket present) clears
the joined-rooms set and the identified user. -/
theorem disconnectEvent_preserves_registry :
    (∀ st : SocketService.State,
      (SocketService.onDisconnectEvent st).joinedConversations =
          st.joinedConversations ∧
        (SocketService.onDisconnectEvent st).currentUserId = st.currentUserId) ∧
    (∀ st : SocketService.State, st.socket.isSome = true →
      (SocketService.disconnect st).joinedConversations = [] ∧
        (SocketService.disconnect st).currentUserId = none) := by
  constructor
  · intro st
    exact ⟨rfl, rfl⟩
  · intro st h
    obtain ⟨sk, hsk⟩ := Option.isSome_iff_exists.mp h
    simp [SocketService.disconnect, hsk]

/-- Witness for C8: a connected registry with one joined room and an
identified user keeps both across the transport's disconnected event, and
loses both on an explicit `disconnect()`. -/
theorem disconnectEvent_preserves_registry_witness :
    ((SocketService.onDisconnectEvent
        ⟨some ⟨true⟩, some 1, ["1_2"], false⟩).joinedConversations = ["1_2"] ∧
      (SocketService.onDisconnectEvent
        ⟨some ⟨true⟩, some 1, ["1_2"], false⟩).currentUserId = some 1) ∧
    ((SocketService.disconnect
        ⟨some ⟨true⟩, some 1, ["1_2"], false⟩).joinedConversations = [] ∧
      (SocketService.disconnect
        ⟨some ⟨true⟩, some 1, ["1_2"], false⟩).currentUserId = none) :=
  ⟨disconnectEvent_preserves_registry.1 ⟨some ⟨true⟩, some 1, ["1_2"], false⟩,
    disconnectEvent_preserves_registry.2 ⟨some ⟨true⟩, some 1, ["1_2"], false⟩ rfl⟩

/-- C10: every `emit` (and in particular every `sendMessage`) made while the
transport socket is absent or not connected is silently discarded: no event
leaves the client, nothing is queued for later delivery, and the registry
state is returned unchanged — the message is lost rather than sent on
reconnection. -/
theorem emit_disconnected_discards :
    (∀ (α : Type) (st : SocketService.State) (event : String) (data : α),
      SocketService.isConnected st = false →
      SocketService.emit st event data = (st, [])) ∧
    (∀ (st : SocketService.State) (senderId recipientId : Int)
        (content : String),
      SocketService.isConnected st = false →
      SocketService.sendMessage st senderId recipientId content = (st, [])) := by
  have hemit : ∀ (α : Type) (st : SocketService.State) (event : String)
      (data : α), SocketService.isConnected st = false →
      SocketService.emit st event data = (st, []) := by
    intro α st event data h
    simp [SocketService.emit, h]
  refine ⟨hemit, ?_⟩
  intro st senderId recipientId content h
  unfold SocketService.sendMessage
  exact hemit SocketService.MessageSendPayload st "message:send"
    (SocketService.MessageSendPayload.mk senderId recipientId content) h

/-- Witness for C10: a `sendMessage` and a raw `emit` on a disconnected
registry (socket present but not connected) return the state unchanged and
emit nothing. -/
theorem emit_disconnected_discards_witness :
    SocketService.emit ⟨some ⟨false⟩, some 1, ["1_2"], false⟩ "typing:start"
        (37 : Int) =
      (⟨some ⟨false⟩, some 1, ["1_2"], false⟩, []) ∧
    SocketService.sendMessage ⟨some ⟨false⟩, some 1, ["1_2"], false⟩ 1 2 "hi" =
      (⟨some ⟨false⟩, some 1, ["1_2"], false⟩, []) :=
  ⟨emit_disconnected_discards.1 Int ⟨some ⟨false⟩, some 1, ["1_2"], false⟩
      "typing:start" 37 rfl,
    emit_disconnected_discards.2 ⟨some ⟨false⟩, some 1, ["1_2"], false⟩ 1 2 "hi"
      rfl⟩

/-! ## Timestamp formatter (`formatTimestamp`, frontend date utils)

The formatter is driven by the JavaScript runtime's default locale (the
repository's tests run under en-US).  The relevant runtime behaviour is
modelled directly:
* `toLocaleTimeString([], {hour: "numeric", minute: "2-digit", hour12: true})`
  produces `h:mm AM`/`h:mm PM` (the space before the day period is modelled
  as a plain space);
* `toLocaleDateString([], {month: "long", day: "numeric", year: "numeric",
  hour: "numeric", minute: "2-digit", hour12: true})` follows the ICU en-US
  pattern `MMMM d, y, h:mm a` — a comma after the day and a second comma
  between the year and the time;
* `String.prototype.replace` with a string pattern replaces only the FIRST
  occurrence;
* `toDateString()` equality is local-calendar-date equality, and
  `setDate(getDate() - 1)` moves to the previous calendar day with month and
  year rollover.
A wall-clock instant is represented by its local calendar/clock fields. -/

namespace DateUtils

/-- A local wall-clock date-time (what `Date` getters return in the local
zone): year, month (1–12), day (1-based), hour (0–23), minute. -/
structure LocalDateTime where
  year : Int
  month : Nat
  day : Nat
  hour : Nat
  minute : Nat
  deriving DecidableEq, Repr

/-- en-US long month names, as produced by `month: "long"`. -/
def monthLongName (m : Nat) : String :=
  match m with
  | 1 => "January"
  | 2 => "February"
  | 3 => "March"
  | 4 => "April"
  | 5 => "May"
  | 6 => "June"
  | 7 => "July"
  | 8 => "August"
  | 9 => "September"
  | 10 => "October"
  | 11 => "November"
  | 12 => "December"
  | _ => ""

/-- `minute: "2-digit"`. -/
def minuteTwoDigit (m : Nat) : String :=
  if m < 10 then "0" ++ toString m else toString m

/-- `hour: "numeric"` with `hour12: true`: 0 and 12 render as 12. -/
def hourTwelve (h : Nat) : Nat :=
  if h % 12 = 0 then 12 else h % 12

/-- The day period of `hour12: true`. -/
def dayPeriod (h : Nat) : String :=
  if h < 12 then "AM" else "PM"

/-- Models `toLocaleTimeString([], {hour: "numeric", minute: "2-digit",
hour12: true})` under en-US. -/
def localeTime (dt : LocalDateTime) : String :=
  toString (hourTwelve dt.hour) ++ ":" ++ minuteTwoDigit dt.minute ++ " " ++
    dayPeriod dt.hour

/-- Models `toLocaleDateString([], {month: "long", day: "numeric",
year: "numeric", hour: "numeric", minute: "2-digit", hour12: true})` under
en-US: ICU pattern `MMMM d, y, h:mm a`. -/
def localeDateTimeLong (dt : LocalDateTime) : String :=
  monthLongName dt.month ++ " " ++ toString dt.day ++ ", " ++
    toString dt.year ++ ", " ++ localeTime dt

/-- `String.prototype.replace(",", "")`: drop only the first comma, keep the
rest of the string unchanged. -/
def removeFirstComma : List Char → List Char
  | [] => []
  | c :: cs => if c = ',' then cs else c :: removeFirstComma cs

/-- `s.replace(",", "")` on a Lean string. -/
def jsReplaceFirstComma (s : String) : String :=
  ⟨removeFirstComma s.data⟩

/-- `String.prototype.toUpperCase` (ASCII suffices for these strings). -/
def jsToUpper (s : String) : String :=
  ⟨s.data.map Char.toUpper⟩

/-- Leap-year rule of the Gregorian calendar. -/
def isLeapYear (y : Int) : Bool :=
  decide ((y % 4 = 0 ∧ y % 100 ≠ 0) ∨ y % 400 = 0)

/-- Days in a month, for the `setDate(getDate() - 1)` rollover. -/
def daysInMonth (y : Int) (m : Nat) : Nat :=
  match m with
  | 2 => if isLeapYear y then 29 else 28
  | 4 => 30
  | 6 => 30
  | 9 => 30
  | 11 => 30
  | _ => 31

/-- The calendar date one day before `dt`'s, as computed by
`const yesterday = new Date(now); yesterday.setDate(yesterday.getDate() - 1)`. -/
def prevCalendarDay (dt : LocalDateTime) : Int × Nat × Nat :=
  if 1 < dt.day then (dt.year, dt.month, dt.day - 1)
  else if dt.month = 1 then (dt.year - 1, 12, 31)
  else (dt.year, dt.month - 1, daysInMonth dt.year (dt.month - 1))

/-- Embeds `formatTimestamp` from the frontend date utils: `Today` (mixed
case) when the local calendar date equals now's; `Yesterday` when it equals
the previous calendar day; otherwise the long locale date-time with the
first comma removed, upper-cased. -/
def formatTimestamp (date now : LocalDateTime) : String :=
  if date.year = now.year ∧ date.month = now.month ∧ date.day = now.day then
    "Today " ++ jsToUpper (localeTime date)
  else
    let y := prevCalendarDay now
    if date.year = y.1 ∧ date.month = y.2.1 ∧ date.day = y.2.2 then
      "Yesterday " ++ jsToUpper (localeTime date)
    else
      jsToUpper (jsReplaceFirstComma (localeDateTimeLong date))

end DateUtils

/-- C9 is a code bug: the claim (and the repository's own test, which
asserts `expect(formatted).not.toContain(',')`) says the non-today,
non-yesterday rendering contains no comma anywhere, but
`String.prototype.replace(",", "")` removes only the first of the two
commas the en-US locale produces, so the comma between the year and the
time survives.  Concretely, a timestamp of 2024-01-01 10:00 rendered with
"now" at 2024-01-15 14:30 yields `"JANUARY 1 2024, 10:00 AM"`, which still
contains a comma. -/
theorem formatTimestamp_old_date_keeps_comma :
    DateUtils.formatTimestamp ⟨2024, 1, 1, 10, 0⟩ ⟨2024, 1, 15, 14, 30⟩ =
      "JANUARY 1 2024, 10:00 AM" ∧
    ',' ∈ (DateUtils.formatTimestamp ⟨2024, 1, 1, 10, 0⟩
      ⟨2024, 1, 15, 14, 30⟩).data := by
  constructor
  · rfl
  · decide

end Chat
